import Mathlib

/-!
Shallow embedding of the Multipdf-summarizer backend
(`backend/Summarization.py` and `backend/app.py`).

Python strings are modelled as `List Char` (abbreviated `Str`); the
whitespace set of `str.strip` / `str.isspace` is modelled by its ASCII
part, which is the part exercised by this code base.
-/

abbrev Str := List Char

/-- Python whitespace test (`str.isspace` on a single character), restricted
to the ASCII whitespace characters. -/
def isPySpace (c : Char) : Bool :=
  c == ' ' || c == '\t' || c == '\n' || c == '\r' || c == '\x0b' || c == '\x0c'

/-- Python `str.strip()`: remove leading and trailing whitespace. -/
def pyStrip (s : Str) : Str :=
  ((s.dropWhile isPySpace).reverse.dropWhile isPySpace).reverse

/-- Index of the first position of `s` at which the literal list `B` occurs,
mirroring the search for the zero-width lookahead boundary `(?=B)`. -/
def findBoundary (B : Str) : Str → Option Nat
  | [] => if B.isPrefixOf ([] : Str) then some 0 else none
  | c :: rest =>
    if B.isPrefixOf (c :: rest) then some 0
    else (findBoundary B rest).map (· + 1)

/-- Fuel-driven worker for `reSub`; the fuel only serves structural
recursion and any value at least the length of the scanned list yields the
substitution's result. -/
def reSubF (P B : Str) : Nat → Str → Str
  | 0, s => s
  | _ + 1, [] => []
  | fuel + 1, c :: rest =>
    match P.isPrefixOf (c :: rest) with
    | false => c :: reSubF P B fuel rest
    | true =>
      match findBoundary B ((c :: rest).drop P.length) with
      | none => c :: reSubF P B fuel rest
      | some k =>
        match P.length + k with
        | 0 => c :: reSubF P B fuel rest
        | _ + 1 => reSubF P B fuel ((c :: rest).drop (P.length + k))

/-- Model of `re.sub(P + ".*?(?=B)", "", s, flags=re.DOTALL)` for a literal prefix
phrase `P` and a literal lookahead boundary `B`: scanning left to right,
each occurrence of `P` is removed together with the (lazily matched)
characters up to the first following occurrence of `B`; the boundary itself
is not consumed, and scanning continues at the boundary position.  An
occurrence of `P` with no later occurrence of `B` does not match. -/
def reSub (P B s : Str) : Str := reSubF P B s.length s

/-- The raw-newline blank-line boundary `\n\n` used by the first nine
patterns of `filter_terms_and_conditions`. -/
def nl2 : Str := ['\n', '\n']

/-- The boundary written `(?=\\n\\n)` inside a raw string in the source:
it denotes the four literal characters backslash, `n`, backslash, `n`,
not a pair of newline characters. -/
def bs2 : Str := ['\\', 'n', '\\', 'n']

/-- The fixed pattern list of `filter_terms_and_conditions`
(Summarization.py lines 216-245), each entry as (literal leading phrase,
literal boundary).  The entry for `r'Pet(s) Related'` is the phrase
"Pets Related": the regex group `(s)` matches exactly the letter `s`. -/
def tcPatterns : List (Str × Str) := [
  ("Rules and policies".toList, nl2),
  ("Terms and conditions".toList, nl2),
  ("Policies".toList, nl2),
  ("Guest Profile".toList, nl2),
  ("Id Proof Related".toList, nl2),
  ("Food Arrangement".toList, nl2),
  ("Smoking/alcohol Consumption Rules".toList, nl2),
  ("Pets Related".toList, nl2),
  ("Property Accessibility".toList, nl2),
  ("Other Rules".toList, bs2),
  ("Child / Extra Bed Policy".toList, bs2),
  ("Adult / Extra Bed Policy".toList, bs2),
  ("PNRs having fully waitlisted status".toList, bs2),
  ("clerkage charge".toList, bs2),
  ("Passengers travelling on a fully waitlisted".toList, bs2),
  ("Obtain certificate from the TTE".toList, bs2),
  ("In case, on a party e-ticket".toList, bs2),
  ("In case train is late more than 3 hours".toList, bs2),
  ("In case of train cancellation".toList, bs2),
  ("Never purchase e-ticket from unauthorized agents".toList, bs2),
  ("For detail, Rules, Refund rules".toList, bs2),
  ("While booking this ticket".toList, bs2),
  ("The FIR forms are available".toList, bs2),
  ("Variety of meals available".toList, bs2),
  ("National Consumer Helpline".toList, bs2),
  ("You can book unreserved ticket".toList, bs2),
  ("As per RBI guidelines".toList, bs2)
]

/-- The bracketed-image-placeholder pattern `r'\[image\].*?(?=\n\n)'`:
literal phrase `[image]`, raw blank-line boundary. -/
def imagePattern : Str × Str := ("[image]".toList, nl2)

/-- All 28 substitutions performed by `filter_terms_and_conditions`, in
application order (the 27 boilerplate patterns, then the image pattern). -/
def allPatterns : List (Str × Str) := tcPatterns ++ [imagePattern]

/-- Fold a pattern list over a text, applying `reSub` for each pattern in
order. -/
def applyPats (pats : List (Str × Str)) (t : Str) : Str :=
  pats.foldl (fun t pb => reSub pb.1 pb.2 t) t

/-- Model of `filter_terms_and_conditions` (Summarization.py lines 205-252): apply
the 27 boilerplate-section substitutions in order, then the image-placeholder
substitution, then `str.strip()`. -/
def filter_terms_and_conditions (text : Str) : Str :=
  pyStrip (reSub imagePattern.1 imagePattern.2
    (tcPatterns.foldl (fun t pb => reSub pb.1 pb.2 t) text))

/-- Whether the list `Q` occurs somewhere in `s` (Boolean occurrence check). -/
def occursB (Q s : Str) : Bool :=
  (List.range (s.length + 1)).any (fun k => Q.isPrefixOf (s.drop k))

/-- A match of the pattern `P.*?(?=B)` exists in `s`: an occurrence of `P`
with an occurrence of `B` starting at or after its end (Boolean check). -/
def hasMatchB (P B s : Str) : Bool :=
  (List.range (s.length + 1)).any
    (fun i => P.isPrefixOf (s.drop i) && occursB B (s.drop (i + P.length)))

/-- A match of the pattern `P.*?(?=B)` exists in `s`, as a decomposition. -/
def HasMatch (P B s : Str) : Prop := ∃ u v w, s = u ++ P ++ v ++ B ++ w

/-- Proposition that `B` occurs somewhere in `s`, as a decomposition. -/
def OccursIn (B s : Str) : Prop := ∃ v w, s = v ++ B ++ w

/-- Single-pattern side conditions under which `reSub` behaves like the
regex substitution in the lemmas below: nonempty phrase, nonempty boundary,
and the boundary's first character does not occur in the phrase. -/
def SelfOk (pb : Str × Str) : Prop :=
  pb.1 ≠ [] ∧ pb.2 ≠ [] ∧ ∀ c ∈ pb.1, c ≠ pb.2.headI

/-- Cross-pattern side conditions: applying the substitution for `q` cannot
create an occurrence of the phrase of `pb`, nor a fresh occurrence of the
boundary of `pb` that is not already accompanied by one. -/
def CrossOk (pb q : Str × Str) : Prop :=
  q.2 ≠ [] ∧ (∀ c ∈ pb.1, c ≠ q.2.headI) ∧ (∀ c ∈ q.1, c ≠ q.2.headI) ∧
    (pb.2 = q.2 ∨ ∀ c ∈ pb.2, c ≠ q.2.headI)

/- ## Aggregator (app.py, upload_multiple_files) -/

/-- The separator header prepended for each document in the multi-file
handler: `f"\n\n--- Content from {file.filename} ---\n\n"`. -/
def docSeparator (name : Str) : Str :=
  ("\n\n--- Content from ".toList) ++ name ++ (" ---\n\n".toList)

/-- The `combined_text` accumulation loop of `upload_multiple_files`
(app.py lines 259-295), restricted to the documents whose text extraction
succeeded: starting from the empty string, append the separator header and
the extracted text of each document in submission order. -/
def aggregate_documents (docs : List (Str × Str)) : Str :=
  docs.foldl (fun acc d => acc ++ docSeparator d.1 ++ d.2) []

/- ## Text extraction (app.py) -/

/-- One `LineItemExpenseFields` entry of an `analyze_expense` response:
optional `Type.Text` and optional `ValueDetection.Text`. -/
structure ExpenseField where
  typeText : Option Str
  valueText : Option Str

/-- Insert-or-update with Python `dict` semantics: an existing key keeps
its position and gets the new value, a new key is appended. -/
def dictInsert {α : Type} (d : List (Str × α)) (k : Str) (v : α) :
    List (Str × α) :=
  if d.any (fun kv => decide (kv.1 = k)) then
    d.map (fun kv => if kv.1 = k then (k, v) else kv)
  else d ++ [(k, v)]

/-- The `extracted_data` dictionary built by `extract_text_from_pdf` from an
`analyze_expense` response: iterate `ExpenseDocuments`, `LineItemGroups`,
`LineItems`, `LineItemExpenseFields` in order, mapping each field's type
text (default "Unknown") to its value text (default ""). -/
def buildExpenseDict (docs : List (List (List (List ExpenseField)))) :
    List (Str × Str) :=
  docs.foldl
    (fun d doc => doc.foldl
      (fun d grp => grp.foldl
        (fun d item => item.foldl
          (fun d f =>
            dictInsert d (f.typeText.getD ("Unknown".toList))
              (f.valueText.getD []))
          d)
        d)
      d)
    []

/-- Lowercase hexadecimal digit. -/
def hexDigit (n : Nat) : Char :=
  if n < 10 then Char.ofNat (48 + n) else Char.ofNat (87 + n)

/-- Escaping of one character as in `json.dumps` (`ensure_ascii=True` default):
quote, backslash and the common control characters get two-character
escapes, other control and non-ASCII characters get `\uXXXX` (characters
beyond the basic multilingual plane, which would use surrogate pairs, are
not modelled). -/
def jsonEscapeChar (c : Char) : Str :=
  if c = '"' then ['\\', '"']
  else if c = '\\' then ['\\', '\\']
  else if c = '\n' then ['\\', 'n']
  else if c = '\t' then ['\\', 't']
  else if c = '\r' then ['\\', 'r']
  else if c = '\x08' then ['\\', 'b']
  else if c = '\x0c' then ['\\', 'f']
  else if c.toNat < 32 || 126 < c.toNat then
    ['\\', 'u', hexDigit (c.toNat / 4096 % 16), hexDigit (c.toNat / 256 % 16),
      hexDigit (c.toNat / 16 % 16), hexDigit (c.toNat % 16)]
  else [c]

/-- A JSON string literal as produced by `json.dumps`. -/
def jsonQuote (s : Str) : Str :=
  '"' :: (s.map jsonEscapeChar).flatten ++ ['"']

/-- Model of `json.dumps` on a string-to-string dictionary (insertion order,
default separators `", "` and `": "`). -/
def jsonDumpsStrDict (d : List (Str × Str)) : Str :=
  '{' :: (List.intercalate (", ".toList)
    (d.map (fun kv => jsonQuote kv.1 ++ (": ".toList) ++ jsonQuote kv.2))) ++ ['}']

/-- One block of an `analyze_document` response. -/
structure TextractBlock where
  blockType : Str
  text : Str

/-- The `extracted_text` accumulation over `analyze_document` blocks:
concatenate `Text + "\n"` of every block whose `BlockType` is `"LINE"`. -/
def linesText (bs : List TextractBlock) : Str :=
  bs.foldl (fun acc b =>
    if b.blockType = ("LINE".toList) then acc ++ b.text ++ ['\n'] else acc) []

/-- Outcome of the PyPDF2 fallback environment: the per-page
`extract_text()` results, an ImportError, or some other exception. -/
inductive PyPdfOutcome where
  | pages (ps : List Str)
  | importError
  | failure (msg : Str)

/-- Decimal rendering of a natural number. -/
def natStr (n : Nat) : Str := (Nat.repr n).toList

/-- The page loop of `extract_text_with_pypdf2`: for each page (0-indexed
`page_num`), append `f"\n--- PAGE {page_num + 1} ---\n"` and the page text
whenever the page text is non-empty. -/
def buildPages : Nat → List Str → Str
  | _, [] => []
  | n, p :: rest =>
    (if p = [] then []
     else ("\n--- PAGE ".toList) ++ natStr (n + 1) ++ (" ---\n".toList) ++ p)
      ++ buildPages (n + 1) rest

/-- Model of `extract_text_with_pypdf2` (app.py lines 120-138). -/
def extract_text_with_pypdf2 : PyPdfOutcome → Str
  | .pages ps =>
    let text := buildPages 0 ps
    if pyStrip text = [] then
      ("No text could be extracted from the PDF.".toList)
    else pyStrip text
  | .importError =>
    ("Error: PyPDF2 library not installed. Please install it with: pip install PyPDF2".toList)
  | .failure m => ("Error extracting text from PDF: ".toList) ++ m

/-- Outcome of the `analyze_expense` call: a successful response (its
nested field lists), the `UnsupportedDocumentException`, or any other
exception. -/
inductive ExpenseCallResult where
  | fields (docs : List (List (List (List ExpenseField))))
  | unsupported
  | failure (msg : Str)

/-- Outcome of the `analyze_document` call. -/
inductive DocCallResult where
  | blocks (bs : List TextractBlock)
  | unsupported
  | failure (msg : Str)

/-- The environment of one `extract_text_from_pdf` run: whether the
Textract client was initialised, and the outcomes the collaborators would
produce if called. -/
structure OcrEnv where
  textractAvailable : Bool
  expenseCall : ExpenseCallResult
  docCall : DocCallResult
  pypdf : PyPdfOutcome

/-- Model of `extract_text_from_pdf` (app.py lines 61-118): expense analysis first
(returning `json.dumps` of the field dictionary when non-empty, the literal
"No data was detected in the document." when empty); on
`UnsupportedDocumentException` the forms/line analysis; on its
`UnsupportedDocumentException` — or on any other exception anywhere, or
when Textract is unavailable — the PyPDF2 fallback. -/
def extract_text_from_pdf (env : OcrEnv) : Str :=
  if env.textractAvailable = false then extract_text_with_pypdf2 env.pypdf
  else
    match env.expenseCall with
    | .failure _ => extract_text_with_pypdf2 env.pypdf
    | .fields docs =>
      let d := buildExpenseDict docs
      if d = [] then ("No data was detected in the document.".toList)
      else jsonDumpsStrDict d
    | .unsupported =>
      match env.docCall with
      | .blocks bs => pyStrip (linesText bs)
      | .unsupported => extract_text_with_pypdf2 env.pypdf
      | .failure _ => extract_text_with_pypdf2 env.pypdf

/-- The extraction-failure test applied by both upload handlers
(app.py lines 206 and 289): `extracted_text.startswith("Error occurred:")`. -/
def extraction_failed_check (s : Str) : Bool :=
  ("Error occurred:".toList).isPrefixOf s

/- ## JSON values and `json.loads` (Summarization.py uses the json module) -/

/-- Python JSON values: `null`, booleans, integers, non-integer numeric
literals (kept as their lexeme), strings, arrays and objects. -/
inductive PyJson where
  | null
  | bool (b : Bool)
  | int (n : Int)
  | numLit (lit : Str)
  | str (s : Str)
  | arr (elems : List PyJson)
  | obj (members : List (Str × PyJson))

/-- Whether a JSON value is an object (a Python `dict`). -/
def PyJson.isObj : PyJson → Bool
  | .obj _ => true
  | _ => false

/-- JSON inter-token whitespace. -/
def jsonWs (c : Char) : Bool :=
  c == ' ' || c == '\t' || c == '\n' || c == '\r'

/-- Skip JSON whitespace. -/
def skipJsonWs (s : Str) : Str := s.dropWhile jsonWs

/-- Value of a hexadecimal digit. -/
def hexVal (c : Char) : Option Nat :=
  if c.isDigit then some (c.toNat - 48)
  else if 'a' ≤ c ∧ c ≤ 'f' then some (c.toNat - 87)
  else if 'A' ≤ c ∧ c ≤ 'F' then some (c.toNat - 55)
  else none

/-- Two-character string escapes of JSON. -/
def jsonEscOf (c : Char) : Option Char :=
  if c = '"' then some '"'
  else if c = '\\' then some '\\'
  else if c = '/' then some '/'
  else if c = 'b' then some '\x08'
  else if c = 'f' then some '\x0c'
  else if c = 'n' then some '\n'
  else if c = 'r' then some '\r'
  else if c = 't' then some '\t'
  else none

/-- Parse a JSON string body (the opening quote already consumed),
returning the decoded string and the remaining input.  Python's strict
decoder rejects raw control characters; `\uXXXX` escapes decode a single
code unit (surrogate-pair combination is not modelled). -/
def parseJsonStr : Str → Option (Str × Str)
  | [] => none
  | c :: rest =>
    if c = '"' then some ([], rest)
    else if c = '\\' then
      match rest with
      | 'u' :: h1 :: h2 :: h3 :: h4 :: rest2 =>
        match hexVal h1, hexVal h2, hexVal h3, hexVal h4 with
        | some a, some b, some d, some e =>
          (parseJsonStr rest2).map
            (fun pr => (Char.ofNat (((a * 16 + b) * 16 + d) * 16 + e) :: pr.1, pr.2))
        | _, _, _, _ => none
      | e :: rest2 =>
        match jsonEscOf e with
        | some ce => (parseJsonStr rest2).map (fun pr => (ce :: pr.1, pr.2))
        | none => none
      | [] => none
    else if c.toNat < 32 then none
    else (parseJsonStr rest).map (fun pr => (c :: pr.1, pr.2))

/-- Decimal digits to a natural number. -/
def digitsToNat (s : Str) : Nat :=
  s.foldl (fun n c => n * 10 + (c.toNat - 48)) 0

/-- Parse a JSON number at the head of the input, following Python's
scanner regex `-?(0|[1-9]\d*)(\.\d+)?([eE][-+]?\d+)?`: an integer lexeme
becomes `PyJson.int`, any lexeme with a fraction or exponent is kept
verbatim as `PyJson.numLit`. -/
def parseJsonNumber (s : Str) : Option (PyJson × Str) :=
  let negs : Bool × Str := match s with
    | '-' :: r => (true, r)
    | _ => (false, s)
  match negs.2 with
  | [] => none
  | c :: tail =>
    if ¬ c.isDigit then none
    else
      let ipr : Str × Str :=
        if c = '0' then (['0'], tail)
        else (negs.2.takeWhile Char.isDigit, negs.2.dropWhile Char.isDigit)
      let fpr : Str × Str :=
        match ipr.2 with
        | '.' :: rr =>
          if rr.takeWhile Char.isDigit = [] then ([], ipr.2)
          else ('.' :: rr.takeWhile Char.isDigit, rr.dropWhile Char.isDigit)
        | _ => ([], ipr.2)
      let epr : Str × Str :=
        match fpr.2 with
        | e :: '+' :: rr =>
          if (e = 'e' ∨ e = 'E') ∧ rr.takeWhile Char.isDigit ≠ [] then
            (e :: '+' :: rr.takeWhile Char.isDigit, rr.dropWhile Char.isDigit)
          else ([], fpr.2)
        | e :: '-' :: rr =>
          if (e = 'e' ∨ e = 'E') ∧ rr.takeWhile Char.isDigit ≠ [] then
            (e :: '-' :: rr.takeWhile Char.isDigit, rr.dropWhile Char.isDigit)
          else ([], fpr.2)
        | e :: rr =>
          if (e = 'e' ∨ e = 'E') ∧ rr.takeWhile Char.isDigit ≠ [] then
            (e :: rr.takeWhile Char.isDigit, rr.dropWhile Char.isDigit)
          else ([], fpr.2)
        | [] => ([], fpr.2)
      if fpr.1 = [] ∧ epr.1 = [] then
        some (PyJson.int (if negs.1 then -(Int.ofNat (digitsToNat ipr.1))
          else Int.ofNat (digitsToNat ipr.1)), ipr.2)
      else
        some (PyJson.numLit ((if negs.1 then ['-'] else []) ++ ipr.1 ++ fpr.1 ++ epr.1),
          epr.2)

mutual

/-- Parse one JSON value at the head of the input. -/
def parseJsonValue : Nat → Str → Option (PyJson × Str)
  | 0, _ => none
  | fuel + 1, s =>
    match s with
    | [] => none
    | c :: rest =>
      if c = '"' then
        (parseJsonStr rest).map (fun pr => (PyJson.str pr.1, pr.2))
      else if c = '{' then
        match skipJsonWs rest with
        | '}' :: r => some (PyJson.obj [], r)
        | t => (parseJsonObjMembers fuel t []).map (fun pr => (PyJson.obj pr.1, pr.2))
      else if c = '[' then
        match skipJsonWs rest with
        | ']' :: r => some (PyJson.arr [], r)
        | t => (parseJsonArrElems fuel t).map (fun pr => (PyJson.arr pr.1, pr.2))
      else if c = 't' then
        match rest with
        | 'r' :: 'u' :: 'e' :: r => some (PyJson.bool true, r)
        | _ => none
      else if c = 'f' then
        match rest with
        | 'a' :: 'l' :: 's' :: 'e' :: r => some (PyJson.bool false, r)
        | _ => none
      else if c = 'n' then
        match rest with
        | 'u' :: 'l' :: 'l' :: r => some (PyJson.null, r)
        | _ => none
      else if c = 'N' then
        match rest with
        | 'a' :: 'N' :: r => some (PyJson.numLit ("NaN".toList), r)
        | _ => none
      else if c = 'I' then
        match rest with
        | 'n' :: 'f' :: 'i' :: 'n' :: 'i' :: 't' :: 'y' :: r =>
          some (PyJson.numLit ("Infinity".toList), r)
        | _ => none
      else if c = '-' then
        match rest with
        | 'I' :: 'n' :: 'f' :: 'i' :: 'n' :: 'i' :: 't' :: 'y' :: r =>
          some (PyJson.numLit ("-Infinity".toList), r)
        | _ => parseJsonNumber s
      else parseJsonNumber s

/-- Parse the members of a JSON object (positioned at a key), accumulating
into a dictionary with Python's duplicate-key semantics. -/
def parseJsonObjMembers : Nat → Str → List (Str × PyJson) →
    Option (List (Str × PyJson) × Str)
  | 0, _, _ => none
  | fuel + 1, s, acc =>
    match s with
    | '"' :: rest =>
      match parseJsonStr rest with
      | none => none
      | some (key, r1) =>
        match skipJsonWs r1 with
        | ':' :: r2 =>
          match parseJsonValue fuel (skipJsonWs r2) with
          | none => none
          | some (v, r3) =>
            match skipJsonWs r3 with
            | ',' :: r4 => parseJsonObjMembers fuel (skipJsonWs r4) (dictInsert acc key v)
            | '}' :: r4 => some (dictInsert acc key v, r4)
            | _ => none
        | _ => none
    | _ => none

/-- Parse the elements of a JSON array (positioned at the first element). -/
def parseJsonArrElems : Nat → Str → Option (List PyJson × Str)
  | 0, _ => none
  | fuel + 1, s =>
    match parseJsonValue fuel s with
    | none => none
    | some (v, r1) =>
      match skipJsonWs r1 with
      | ',' :: r2 => (parseJsonArrElems fuel (skipJsonWs r2)).map (fun pr => (v :: pr.1, pr.2))
      | ']' :: r2 => some ([v], r2)
      | _ => none

end

/-- Model of `json.loads`: parse exactly one JSON value surrounded by optional
whitespace; anything else fails (in Python, with an exception — modelled
as `none`). -/
def json_loads (s : Str) : Option PyJson :=
  match parseJsonValue (2 * s.length + 2) (skipJsonWs s) with
  | some (v, r) => if skipJsonWs r = [] then some v else none
  | none => none

/- ## Output repair (Summarization.py, clean_model_json_output) -/

/-- Model of `re.sub(r"^```(?:json)?", "", s, flags=re.IGNORECASE)`: remove one
leading triple-backtick fence, optionally tagged `json` in any case. -/
def stripFenceOpen (s : Str) : Str :=
  if ("```".toList).isPrefixOf s then
    if ((s.drop 3).take 4).map Char.toLower = ("json".toList) then
      (s.drop 3).drop 4
    else s.drop 3
  else s

/-- Model of `re.sub(r"```$", "", s)`: remove one trailing triple-backtick fence
(the input is already stripped, so `$` can only match at the very end). -/
def stripFenceClose (s : Str) : Str :=
  if ("```".toList).isSuffixOf s then s.take (s.length - 3) else s

/-- The text after the two fence substitutions of
`clean_model_json_output`: strip, remove the opening fence, strip again,
remove the closing fence. -/
def afterFences (t : Str) : Str :=
  stripFenceClose (pyStrip (stripFenceOpen (pyStrip t)))

/-- The suffix of `s` starting at the first occurrence of `ch`. -/
def suffixFrom (ch : Char) : Str → Option Str
  | [] => none
  | c :: rest => if c = ch then some (c :: rest) else suffixFrom ch rest

/-- Model of `re.search(r"\{.*\}", s, re.DOTALL)`: the span from the first `{` to
the last `}`, when a `}` occurs after the first `{`. -/
def braceSpan (s : Str) : Option Str :=
  match suffixFrom '{' s with
  | none => none
  | some s1 =>
    match suffixFrom '}' s1.reverse with
    | none => none
    | some r1 => some r1.reverse

/-- Model of `clean_model_json_output` (Summarization.py lines 55-70). -/
def clean_model_json_output (t : Str) : Str :=
  match braceSpan (afterFences t) with
  | some sp => sp
  | none => pyStrip (afterFences t)

/-- The output-repair step around the model response in
`summarize_multiple_documents` (lines 160-167): clean the text, try
`json.loads`, and on any failure fall back to
`{"raw_summary": response.text.strip()}`. -/
def repair_model_output (t : Str) : PyJson :=
  match json_loads (clean_model_json_output t) with
  | some v => v
  | none => PyJson.obj [(("raw_summary".toList), PyJson.str (pyStrip t))]

/- ## Summarizer (Summarization.py) -/

/-- Result of one `generate_content` call of the LLM collaborator. -/
inductive GenResult where
  | ok (text : Str)
  | err (msg : Str)

/-- The primary model identifier (`gemini-1.5-flash-latest`). -/
def primaryModelName : Str := "gemini-1.5-flash-latest".toList

/-- The fallback model identifier (`gemini-1.0-pro-latest`). -/
def fallbackModelName : Str := "gemini-1.0-pro-latest".toList

/-- The prompt built by `summarize_text`. -/
def summaryPrompt (max_words : Nat) (text : Str) : Str :=
  ("\n        Summarize the following text in a concise way, not exceeding ".toList)
    ++ natStr max_words
    ++ (" words. \n        Focus on the main points and key information:\n        \n        ".toList)
    ++ text ++ ("\n        ".toList)

/-- Model of `summarize_text` (Summarization.py lines 17-50), over an LLM
collaborator `gen` mapping a model name and a prompt to an outcome. -/
def summarize_text (gen : Str → Str → GenResult) (text : Str)
    (max_words : Nat) : Str :=
  if text.all isPySpace then ("No text provided for summarization.".toList)
  else
    match gen primaryModelName (summaryPrompt max_words text) with
    | .ok r => pyStrip r
    | .err _ =>
      match gen fallbackModelName (summaryPrompt max_words text) with
      | .ok r => pyStrip r
      | .err fe => ("Error during summarization: ".toList) ++ fe

/-- The `files_info` line of `summarize_multiple_documents`: empty unless a
non-empty file-name list is given. -/
def filesInfo : Option (List Str) → Str
  | some (n :: ns) =>
    ("Documents analyzed: ".toList) ++ List.intercalate (", ".toList) (n :: ns)
  | _ => []

/-- The fixed schema-and-instructions text of the multi-document prompt up
to the maximum-length clause. -/
def multiPromptHead : Str :=
  ("\nYou are an expert travel document summarizer. Given the following travel documents, extract and return a JSON object with this structure:\n\n\x7b\n  \"traveler_info\": [\n    \x7b\n      \"full_name\": \"\",\n      \"number_of_companions\": 0,\n      \"companions\": []\n    \x7d\n  ],\n  \"travel_details\": [\n    \x7b\n      \"journey\": 1,\n      \"pnr_number\": \"\",\n      \"mode_of_transport\": \"\",\n      \"train_or_flight_number\": \"\",\n      \"date\": \"\",\n      \"time\": \"\",\n      \"route\": \"\",\n      \"seat\": \"\",\n      \"fare\": \"\"\n    \x7d\n  ],\n  \"accommodation_details\": [\n    \x7b\n      \"hotel\": \"\",\n      \"booking_id\": \"\",\n      \"stay\": \"\",\n      \"room_type\": \"\",\n      \"guests\": \"\",\n      \"total_cost\": \"\",\n      \"key_amenities\": []\n    \x7d\n  ],\n  \"cost_summary\": \x7b\n    \"transportation\": \"\",\n    \"accommodation\": \"\",\n    \"total_trip_cost\": \"\"\n  \x7d,\n  \"notes\": \x7b\n    \"critical_info\": \"\",\n    \"special_requirements\": \"\",\n    \"extra_docs\": \"\"\n  \x7d,\n  \"overview\": \"\"\n\x7d\n\nInstructions:\n- Extract every traveler's name from the documents and include each as an entry in \"traveler_info\".\n- If travelers are part of the same booking (e.g., a family), use the same \"travel_details\", \"accommodation_details\", \"cost_summary\", and \"notes\" for all travelers.\n- For the \"notes\" section:\n    - \"critical_info\" should be concise (no more than 1-2 lines, only the most important info).\n    - \"special_requirements\" and \"extra_docs\" should be brief and relevant.\n- For \"accommodation_details\", include at most 5 or 6 of the most important hotel amenities in \"key_amenities\".\n- For \"overview\", write a short, 3-4 line summary of the trip based on the invoices, mentioning the main highlights (e.g., destination, duration, travel/accommodation type, and any special notes).\n- Do NOT omit any traveler or important field. If a field is missing, leave it as an empty string, 0, or empty list.\n- For lists (like journeys, accommodations, companions, amenities), include all relevant items, but limit amenities as above.\n- Do NOT include any explanation or text outside the JSON object.\n- Maximum length: ".toList)

/-- The prompt built by `summarize_multiple_documents`. -/
def multiPrompt (combined_text : Str) (file_names : Option (List Str))
    (max_words : Nat) : Str :=
  multiPromptHead ++ natStr max_words ++ (" words.\n\n".toList)
    ++ filesInfo file_names
    ++ ("\n\nHere are the document contents:\n\n".toList)
    ++ combined_text ++ ['\n']

/-- Model of `summarize_multiple_documents` (Summarization.py lines 72-181). -/
def summarize_multiple_documents (gen : Str → Str → GenResult)
    (combined_text : Str) (file_names : Option (List Str))
    (max_words : Nat) : PyJson :=
  if combined_text.all isPySpace then
    PyJson.obj [(("error".toList),
      PyJson.str ("No text provided for summarization.".toList))]
  else
    match gen primaryModelName (multiPrompt combined_text file_names max_words) with
    | .ok r => repair_model_output r
    | .err _ =>
      match gen fallbackModelName (multiPrompt combined_text file_names max_words) with
      | .ok r => repair_model_output r
      | .err fe =>
        PyJson.obj [(("error".toList),
          PyJson.str (("Error during multi-document summarization: ".toList) ++ fe))]

/- ## Concrete collaborator behaviours used by witnesses -/

/-- A collaborator on which every model call fails. -/
def genBothFail : Str → Str → GenResult := fun _ _ => .err ("x".toList)

/-- A collaborator that successfully returns the very text the summarizer
uses as its double-failure marker. -/
def genFakeError : Str → Str → GenResult :=
  fun _ _ => .ok ("Error during summarization: x".toList)

/-- A collaborator failing with distinct messages on primary and fallback. -/
def genPrimaryFallbackFail : Str → Str → GenResult :=
  fun m _ => if m = primaryModelName then .err ("p".toList) else .err ("q".toList)

/-- A collaborator whose primary call fails and whose fallback call
succeeds. -/
def genFallbackOk : Str → Str → GenResult :=
  fun m _ => if m = primaryModelName then .err ("p".toList)
    else .ok ("  fallback summary ".toList)

/-- An always-successful collaborator. -/
def genAlwaysOk : Str → Str → GenResult := fun _ _ => .ok ("s1".toList)

/-- An always-failing collaborator with a different message. -/
def genAlwaysFail : Str → Str → GenResult := fun _ _ => .err ("s2".toList)

/- ## Helper lemmas: occurrences and matches -/

theorem hasMatch_cons {P B s : Str} {c : Char} (h : HasMatch P B s) :
    HasMatch P B (c :: s) := by
  obtain ⟨u, v, w, rfl⟩ := h
  exact ⟨c :: u, v, w, rfl⟩

theorem occursIn_cons {B s : Str} {c : Char} (h : OccursIn B s) :
    OccursIn B (c :: s) := by
  obtain ⟨v, w, rfl⟩ := h
  exact ⟨c :: v, w, rfl⟩

theorem occursIn_of_suffix {B s t : Str} (hsuf : t <:+ s) (h : OccursIn B t) :
    OccursIn B s := by
  obtain ⟨pre, rfl⟩ := hsuf
  obtain ⟨v, w, rfl⟩ := h
  exact ⟨pre ++ v, w, by simp⟩

theorem hasMatch_of_suffix {P B s t : Str} (hsuf : t <:+ s)
    (h : HasMatch P B t) : HasMatch P B s := by
  obtain ⟨pre, rfl⟩ := hsuf
  obtain ⟨u, v, w, rfl⟩ := h
  exact ⟨pre ++ u, v, w, by simp⟩

theorem hasMatch_of_within {P B s t : Str} (hinf : t <:+: s)
    (h : HasMatch P B t) : HasMatch P B s := by
  obtain ⟨pre, post, rfl⟩ := hinf
  obtain ⟨u, v, w, rfl⟩ := h
  exact ⟨pre ++ u, v, w ++ post, by simp⟩

theorem prefix_decomp {P l : Str} (h : P <+: l) : l = P ++ l.drop P.length := by
  obtain ⟨t, rfl⟩ := h
  rw [List.drop_left]

/-- Occurrence decomposition at a drop position. -/
theorem decomp_of_prefix_drop {B l : Str} {k : Nat} (h : B <+: l.drop k) :
    l = l.take k ++ B ++ (l.drop k).drop B.length := by
  conv_lhs => rw [← List.take_append_drop k l]
  rw [List.append_assoc]
  congr 1
  exact prefix_decomp h

theorem occursB_iff {B t : Str} : occursB B t = true ↔ OccursIn B t := by
  constructor
  · intro h
    simp only [occursB, List.any_eq_true, List.mem_range] at h
    obtain ⟨k, _, hk⟩ := h
    rw [ List.isPrefixOf_iff_prefix] at hk
    exact ⟨t.take k, (t.drop k).drop B.length, by
      simpa using (decomp_of_prefix_drop hk)⟩
  · rintro ⟨v, w, rfl⟩
    simp only [occursB, List.any_eq_true, List.mem_range]
    refine ⟨v.length, ?_, ?_⟩
    · rw [List.length_append, List.length_append]
      omega
    · rw [ List.isPrefixOf_iff_prefix]
      simp only [List.append_assoc]
      rw [List.drop_left]
      exact ⟨w, rfl⟩

theorem hasMatchB_iff {P B s : Str} : hasMatchB P B s = true ↔ HasMatch P B s := by
  constructor
  · intro h
    simp only [hasMatchB, List.any_eq_true, List.mem_range, Bool.and_eq_true] at h
    obtain ⟨i, _, hpre, hocc⟩ := h
    rw [ List.isPrefixOf_iff_prefix] at hpre
    rw [occursB_iff] at hocc
    obtain ⟨v, w, hvw⟩ := hocc
    refine ⟨s.take i, v, w, ?_⟩
    conv_lhs => rw [← List.take_append_drop i s]
    rw [prefix_decomp hpre, List.drop_drop, hvw]
    simp
  · rintro ⟨u, v, w, rfl⟩
    simp only [hasMatchB, List.any_eq_true, List.mem_range, Bool.and_eq_true]
    refine ⟨u.length, ?_, ?_, ?_⟩
    · simp only [List.length_append]
      omega
    · rw [ List.isPrefixOf_iff_prefix]
      simp only [List.append_assoc]
      rw [List.drop_left]
      exact ⟨v ++ (B ++ w), by simp⟩
    · rw [occursB_iff, ← List.drop_drop]
      simp only [List.append_assoc]
      rw [List.drop_left]
      rw [List.drop_left]
      exact ⟨v, w, by simp⟩

/- ## Helper lemmas: findBoundary -/

theorem findBoundary_some {B : Str} :
    ∀ {l : Str} {k : Nat}, findBoundary B l = some k → B <+: l.drop k := by
  intro l
  induction l with
  | nil =>
    intro k h
    simp only [findBoundary] at h
    split at h
    · rename_i hpre
      rw [ List.isPrefixOf_iff_prefix] at hpre
      cases h
      simpa using hpre
    · cases h
  | cons c rest ih =>
    intro k h
    simp only [findBoundary] at h
    split at h
    · rename_i hpre
      rw [ List.isPrefixOf_iff_prefix] at hpre
      cases h
      simpa using hpre
    · simp only [Option.map_eq_some'] at h
      obtain ⟨k', hk', rfl⟩ := h
      simpa using ih hk'

theorem findBoundary_none {B : Str} :
    ∀ {l : Str}, findBoundary B l = none → ∀ k, ¬ B <+: l.drop k := by
  intro l
  induction l with
  | nil =>
    intro h k hk
    simp only [findBoundary] at h
    split at h
    · cases h
    · rename_i hpre
      rw [ List.isPrefixOf_iff_prefix] at hpre
      simp at hk
      exact hpre (by simp [hk])
  | cons c rest ih =>
    intro h k hk
    simp only [findBoundary] at h
    split at h
    · cases h
    · rename_i hpre
      rw [ List.isPrefixOf_iff_prefix] at hpre
      simp only [Option.map_eq_none'] at h
      match k with
      | 0 => exact hpre (by simpa using hk)
      | k' + 1 => exact ih h k' (by simpa using hk)

/- ## Helper lemmas: reSub -/

theorem reSubF_id {P B : Str} :
    ∀ {fuel : Nat} {s : Str}, s.length ≤ fuel → ¬ HasMatch P B s →
      reSubF P B fuel s = s := by
  intro fuel
  induction fuel with
  | zero => intro s _ _; rfl
  | succ fuel ih =>
    intro s hlen hnm
    match s with
    | [] => rfl
    | c :: rest =>
      have hrest : rest.length ≤ fuel := by
        simp only [List.length_cons] at hlen; omega
      have hnmr : ¬ HasMatch P B rest := fun h => hnm (hasMatch_cons h)
      cases h1 : P.isPrefixOf (c :: rest) with
      | false => simp only [reSubF, h1]; rw [ih hrest hnmr]
      | true =>
        cases h2 : findBoundary B ((c :: rest).drop P.length) with
        | none => simp only [reSubF, h1, h2]; rw [ih hrest hnmr]
        | some k =>
          exfalso
          apply hnm
          rw [ List.isPrefixOf_iff_prefix] at h1
          have hB := findBoundary_some h2
          refine ⟨[], ((c :: rest).drop P.length).take k,
            (((c :: rest).drop P.length).drop k).drop B.length, ?_⟩
          conv_lhs => rw [prefix_decomp h1]
          conv_lhs => rw [decomp_of_prefix_drop hB]
          simp [List.append_assoc]

/-- When the scanned text begins with the boundary, the substitution keeps
its head character (the phrase, which does not contain that character,
cannot match there). -/
theorem reSubF_head {P B : Str} {b0 : Char} {Bt : Str}
    (hB : B = b0 :: Bt) (hP : P ≠ []) (hb0 : b0 ∉ P) :
    ∀ (fuel : Nat) {s : Str}, B <+: s → ∃ r, reSubF P B fuel s = b0 :: r := by
  intro fuel s hpre
  obtain ⟨t, ht⟩ := hpre
  rw [hB] at ht
  obtain ⟨s', rfl⟩ : ∃ s', s = b0 :: s' := ⟨Bt ++ t, by rw [← ht]; simp⟩
  cases fuel with
  | zero => exact ⟨s', rfl⟩
  | succ fuel =>
    have h1 : P.isPrefixOf (b0 :: s') = false := by
      rw [Bool.eq_false_iff]
      intro hcontra
      rw [ List.isPrefixOf_iff_prefix] at hcontra
      match P, hP with
      | p0 :: pt, _ =>
        rw [List.cons_prefix_cons] at hcontra
        obtain ⟨rfl, -⟩ := hcontra
        exact hb0 (List.mem_cons_self _ _)
    simp only [reSubF, h1]
    exact ⟨reSubF P B fuel s', rfl⟩

/-- If the output of the substitution with pattern `(P, B)` starts with a
tail `C.drop d` of a query boundary `C`, then either the input already
started with that tail, or `C` occurs (whole) in the input.  The side
condition `hseam` rules out fresh occurrences of `C` fabricated across a
removal seam: either `C` is the boundary `B` itself (which survives at
every seam), or no character of `C` equals the head of `B`. -/
theorem reSubF_bdrop {P B C : Str} {b0 : Char} {Bt : Str}
    (hB : B = b0 :: Bt) (hP : P ≠ [])
    (hseam : C = B ∨ ∀ c ∈ C, c ≠ b0) :
    ∀ {fuel : Nat} {s : Str}, s.length ≤ fuel →
      ∀ {d : Nat} {w : Str}, reSubF P B fuel s = C.drop d ++ w →
        (∃ w2, s = C.drop d ++ w2) ∨ OccursIn C s := by
  intro fuel
  induction fuel with
  | zero =>
    intro s _ d w heq
    exact Or.inl ⟨w, heq⟩
  | succ fuel ih =>
    intro s hlen d w heq
    match s with
    | [] =>
      simp only [reSubF] at heq
      cases hCd : C.drop d with
      | nil => exact Or.inl ⟨[], by simp [hCd]⟩
      | cons e es => rw [hCd] at heq; cases heq
    | c :: rest =>
      have hrest : rest.length ≤ fuel := by
        simp only [List.length_cons] at hlen; omega
      have keepCase : c :: reSubF P B fuel rest = C.drop d ++ w →
          (∃ w2, c :: rest = C.drop d ++ w2) ∨ OccursIn C (c :: rest) := by
        intro heq2
        cases hCd : C.drop d with
        | nil => exact Or.inl ⟨c :: rest, by simp [hCd]⟩
        | cons e es =>
          rw [hCd, List.cons_append] at heq2
          injection heq2 with hce hR
          subst hce
          have hes : es = C.drop (d + 1) := by
            have hdd : (C.drop d).drop 1 = C.drop (d + 1) := by
              rw [List.drop_drop]
            rw [hCd] at hdd
            simpa using hdd
          rw [hes] at hR
          rcases ih hrest hR with ⟨w2, hw2⟩ | hocc
          · exact Or.inl ⟨w2, by simp [hw2, hes]⟩
          · exact Or.inr (occursIn_cons hocc)
      cases h1 : P.isPrefixOf (c :: rest) with
      | false =>
        simp only [reSubF, h1] at heq
        exact keepCase heq
      | true =>
        cases h2 : findBoundary B ((c :: rest).drop P.length) with
        | none =>
          simp only [reSubF, h1, h2] at heq
          exact keepCase heq
        | some k =>
          cases h3 : P.length + k with
          | zero =>
            exfalso
            have hlP : P.length = 0 := by omega
            exact hP (List.length_eq_zero.mp hlP)
          | succ n =>
            simp only [reSubF, h1, h2, h3] at heq
            have hs2len : ((c :: rest).drop (n + 1)).length ≤ fuel := by
              simp only [List.length_drop, List.length_cons]
              omega
            have hBpre : B <+: (c :: rest).drop (n + 1) := by
              have hfb := findBoundary_some h2
              rw [List.drop_drop, h3] at hfb
              exact hfb
            have hsuf : (c :: rest).drop (n + 1) <:+ c :: rest :=
              List.drop_suffix _ _
            rcases ih hs2len heq with ⟨w2, hw2⟩ | hocc
            · rcases hseam with hCeq | hdisj
              · refine Or.inr (occursIn_of_suffix hsuf ?_)
                obtain ⟨t, ht⟩ := hBpre
                exact ⟨[], t, by rw [← ht, hCeq]; simp⟩
              · cases hCd : C.drop d with
                | nil => exact Or.inl ⟨c :: rest, by simp [hCd]⟩
                | cons e es =>
                  exfalso
                  have he : e ∈ C := by
                    refine List.drop_subset d C ?_
                    rw [hCd]
                    exact List.mem_cons_self _ _
                  have hne := hdisj e he
                  rw [hB, hw2, hCd, List.cons_append] at hBpre
                  rw [List.cons_prefix_cons] at hBpre
                  exact hne hBpre.1.symm
            · exact Or.inr (occursIn_of_suffix hsuf hocc)

/-- If the output of the substitution with `(P, B)` decomposes as
`Q ++ v ++ C ++ w` for a query phrase `Q` (not containing the boundary's
head character) and a query boundary `C`, then the input decomposes the
same way: the substitution cannot fabricate such a decomposition. -/
theorem reSubF_headMatch {P B C : Str} {b0 : Char} {Bt : Str}
    (hB : B = b0 :: Bt) (hP : P ≠ []) (hC : C ≠ []) (hb0P : b0 ∉ P)
    (hseam : C = B ∨ ∀ c ∈ C, c ≠ b0) :
    ∀ {fuel : Nat} {s Q v w : Str}, s.length ≤ fuel → b0 ∉ Q →
      reSubF P B fuel s = Q ++ v ++ C ++ w →
      ∃ v2 w2, s = Q ++ v2 ++ C ++ w2 := by
  intro fuel
  induction fuel with
  | zero =>
    intro s Q v w _ _ heq
    simp only [reSubF] at heq
    exact ⟨v, w, heq⟩
  | succ fuel ih =>
    intro s Q v w hlen hQ heq
    match s with
    | [] =>
      exfalso
      simp only [reSubF] at heq
      have hnil := heq.symm
      simp only [List.append_eq_nil] at hnil
      exact hC hnil.1.2
    | c :: rest =>
      have hrest : rest.length ≤ fuel := by
        simp only [List.length_cons] at hlen; omega
      have keepCase : c :: reSubF P B fuel rest = Q ++ v ++ C ++ w →
          ∃ v2 w2, c :: rest = Q ++ v2 ++ C ++ w2 := by
        intro heq2
        cases Q with
        | cons q Qt =>
          simp only [List.cons_append, List.append_assoc] at heq2
          injection heq2 with hcq hR
          rw [← List.append_assoc, ← List.append_assoc] at hR
          have hQt : b0 ∉ Qt := fun h => hQ (List.mem_cons_of_mem _ h)
          obtain ⟨v2, w2, hrest2⟩ := ih hrest hQt hR
          exact ⟨v2, w2, by rw [hcq, hrest2]; simp⟩
        | nil =>
          cases v with
          | cons x v' =>
            simp only [List.nil_append, List.cons_append, List.append_assoc] at heq2
            injection heq2 with hcx hR
            rw [← List.append_assoc] at hR
            obtain ⟨v2, w2, hrest2⟩ := ih (Q := []) hrest (by simp)
              (by simpa using hR)
            simp only [List.nil_append] at hrest2
            exact ⟨x :: v2, w2, by rw [hcx, hrest2]; simp⟩
          | nil =>
            simp only [List.nil_append] at heq2
            cases C with
            | nil => exact absurd rfl hC
            | cons C0 Ct =>
              rw [List.cons_append] at heq2
              injection heq2 with hcC hR
              have hR2 : reSubF P B fuel rest = (C0 :: Ct).drop 1 ++ w := by
                simpa using hR
              rcases reSubF_bdrop hB hP hseam hrest hR2 with ⟨w2, hw2⟩ | hocc
              · exact ⟨[], w2, by rw [hcC]; simp at hw2 ⊢; rw [hw2]⟩
              · obtain ⟨a, b, hab⟩ := hocc
                exact ⟨c :: a, b, by rw [hab]; simp⟩
      cases h1 : P.isPrefixOf (c :: rest) with
      | false =>
        simp only [reSubF, h1] at heq
        exact keepCase heq
      | true =>
        cases h2 : findBoundary B ((c :: rest).drop P.length) with
        | none =>
          simp only [reSubF, h1, h2] at heq
          exact keepCase heq
        | some k =>
          cases h3 : P.length + k with
          | zero => exact absurd (List.length_eq_zero.mp (by omega)) hP
          | succ n =>
            simp only [reSubF, h1, h2, h3] at heq
            have hs2len : ((c :: rest).drop (n + 1)).length ≤ fuel := by
              simp only [List.length_drop, List.length_cons]; omega
            have hBpre : B <+: (c :: rest).drop (n + 1) := by
              have hfb := findBoundary_some h2
              rw [List.drop_drop, h3] at hfb
              exact hfb
            cases Q with
            | nil =>
              obtain ⟨v2, w2, hs2⟩ := ih (Q := []) hs2len (by simp) heq
              obtain ⟨pre, hpre⟩ := List.drop_suffix (n + 1) (c :: rest)
              refine ⟨pre ++ v2, w2, ?_⟩
              rw [← hpre, hs2]
              simp
            | cons q Qt =>
              exfalso
              obtain ⟨r, hr⟩ := reSubF_head hB hP hb0P fuel hBpre
              rw [hr] at heq
              simp only [List.cons_append, List.append_assoc] at heq
              injection heq with hb0q
              subst hb0q
              exact hQ (List.mem_cons_self _ _)

theorem not_hasMatch_nil {P B : Str} (hP : P ≠ []) :
    ¬ HasMatch P B ([] : Str) := by
  rintro ⟨u, v, w, huvw⟩
  have hnil := huvw.symm
  simp only [List.append_eq_nil] at hnil
  exact hP hnil.1.1.1.2

/-- A match of a query pattern `(Pq, Cq)` in the output of the substitution
with `(P, B)` was already present in the input. -/
theorem reSubF_hasMatch_rev {P B Pq Cq : Str} {b0 : Char} {Bt : Str}
    (hB : B = b0 :: Bt) (hP : P ≠ []) (hCq : Cq ≠ [])
    (hb0Pq : b0 ∉ Pq) (hb0P : b0 ∉ P)
    (hseam : Cq = B ∨ ∀ c ∈ Cq, c ≠ b0) :
    ∀ {fuel : Nat} {s : Str}, s.length ≤ fuel →
      HasMatch Pq Cq (reSubF P B fuel s) → HasMatch Pq Cq s := by
  intro fuel
  induction fuel with
  | zero =>
    intro s _ h
    simpa only [reSubF] using h
  | succ fuel ih =>
    intro s hlen h
    match s with
    | [] => simpa only [reSubF] using h
    | c :: rest =>
      have hrest : rest.length ≤ fuel := by
        simp only [List.length_cons] at hlen; omega
      have keepCase :
          reSubF P B (fuel + 1) (c :: rest) = c :: reSubF P B fuel rest →
          HasMatch Pq Cq (c :: rest) := by
        intro hstep
        rw [hstep] at h
        obtain ⟨u, v, w, huvw⟩ := h
        cases u with
        | nil =>
          simp only [List.nil_append] at huvw
          obtain ⟨v2, w2, hs⟩ := reSubF_headMatch hB hP hCq hb0P hseam
            hlen hb0Pq (hstep.trans huvw)
          exact ⟨[], v2, w2, by simpa using hs⟩
        | cons x u2 =>
          simp only [List.cons_append, List.append_assoc] at huvw
          injection huvw with hcx hR
          have hrm : HasMatch Pq Cq (reSubF P B fuel rest) :=
            ⟨u2, v, w, by rw [hR]; simp [List.append_assoc]⟩
          exact hasMatch_cons (ih hrest hrm)
      cases h1 : P.isPrefixOf (c :: rest) with
      | false => exact keepCase (by simp only [reSubF, h1])
      | true =>
        cases h2 : findBoundary B ((c :: rest).drop P.length) with
        | none => exact keepCase (by simp only [reSubF, h1, h2])
        | some k =>
          cases h3 : P.length + k with
          | zero => exact absurd (List.length_eq_zero.mp (by omega)) hP
          | succ n =>
            simp only [reSubF, h1, h2, h3] at h
            have hs2len : ((c :: rest).drop (n + 1)).length ≤ fuel := by
              simp only [List.length_drop, List.length_cons]; omega
            exact hasMatch_of_suffix (List.drop_suffix _ _) (ih hs2len h)

/-- The substitution's own pattern never matches in its output. -/
theorem reSubF_noMatch {P B : Str} {b0 : Char} {Bt : Str}
    (hB : B = b0 :: Bt) (hP : P ≠ []) (hb0 : b0 ∉ P) :
    ∀ {fuel : Nat} {s : Str}, s.length ≤ fuel →
      ¬ HasMatch P B (reSubF P B fuel s) := by
  have hBne : B ≠ [] := by rw [hB]; exact List.cons_ne_nil _ _
  intro fuel
  induction fuel with
  | zero =>
    intro s hlen h
    have hs : s = [] := List.length_eq_zero.mp (Nat.le_zero.mp hlen)
    subst hs
    simp only [reSubF] at h
    exact not_hasMatch_nil hP h
  | succ fuel ih =>
    intro s hlen h
    match s with
    | [] =>
      simp only [reSubF] at h
      exact not_hasMatch_nil hP h
    | c :: rest =>
      have hrest : rest.length ≤ fuel := by
        simp only [List.length_cons] at hlen; omega
      cases h1 : P.isPrefixOf (c :: rest) with
      | false =>
        have hstep : reSubF P B (fuel + 1) (c :: rest) =
            c :: reSubF P B fuel rest := by simp only [reSubF, h1]
        rw [hstep] at h
        obtain ⟨u, v, w, huvw⟩ := h
        cases u with
        | nil =>
          simp only [List.nil_append] at huvw
          obtain ⟨v2, w2, hs⟩ := reSubF_headMatch hB hP hBne hb0
            (Or.inl rfl) hlen hb0 (hstep.trans huvw)
          have hpre : P.isPrefixOf (c :: rest) = true := by
            rw [ List.isPrefixOf_iff_prefix, hs]
            simp only [List.append_assoc]
            exact List.prefix_append _ _
          rw [h1] at hpre
          cases hpre
        | cons x u2 =>
          simp only [List.cons_append, List.append_assoc] at huvw
          injection huvw with hcx hR
          exact ih hrest ⟨u2, v, w, by rw [hR]; simp [List.append_assoc]⟩
      | true =>
        cases h2 : findBoundary B ((c :: rest).drop P.length) with
        | none =>
          have hstep : reSubF P B (fuel + 1) (c :: rest) =
              c :: reSubF P B fuel rest := by simp only [reSubF, h1, h2]
          rw [hstep] at h
          obtain ⟨u, v, w, huvw⟩ := h
          cases u with
          | nil =>
            simp only [List.nil_append] at huvw
            obtain ⟨v2, w2, hs⟩ := reSubF_headMatch hB hP hBne hb0
              (Or.inl rfl) hlen hb0 (hstep.trans huvw)
            have hdrop : (c :: rest).drop P.length = v2 ++ (B ++ w2) := by
              rw [hs]
              simp only [List.append_assoc]
              rw [List.drop_left]
            have hBat : B <+: ((c :: rest).drop P.length).drop v2.length := by
              rw [hdrop, List.drop_left]
              exact List.prefix_append _ _
            exact findBoundary_none h2 v2.length hBat
          | cons x u2 =>
            simp only [List.cons_append, List.append_assoc] at huvw
            injection huvw with hcx hR
            exact ih hrest ⟨u2, v, w, by rw [hR]; simp [List.append_assoc]⟩
        | some k =>
          cases h3 : P.length + k with
          | zero => exact absurd (List.length_eq_zero.mp (by omega)) hP
          | succ n =>
            simp only [reSubF, h1, h2, h3] at h
            have hs2len : ((c :: rest).drop (n + 1)).length ≤ fuel := by
              simp only [List.length_drop, List.length_cons]; omega
            exact ih hs2len h

/- ## Assembly: reSub and applyPats under the side conditions -/

theorem not_mem_of_all_ne {c : Char} {l : Str} (h : ∀ x ∈ l, x ≠ c) :
    c ∉ l := fun hm => h c hm rfl

theorem reSub_id {P B s : Str} (h : ¬ HasMatch P B s) : reSub P B s = s :=
  reSubF_id le_rfl h

theorem reSub_noMatch {P B : Str} (hok : SelfOk (P, B)) (s : Str) :
    ¬ HasMatch P B (reSub P B s) := by
  obtain ⟨hP, hBne, hall⟩ := hok
  obtain ⟨b0, Bt, hB⟩ := List.exists_cons_of_ne_nil hBne
  have hhead : (P, B).2.headI = b0 := by rw [hB]; rfl
  rw [hhead] at hall
  exact reSubF_noMatch hB hP (not_mem_of_all_ne hall) le_rfl

theorem reSub_pres {Pq Cq P B s : Str} (hokq : SelfOk (Pq, Cq))
    (hok : SelfOk (P, B)) (hcross : CrossOk (Pq, Cq) (P, B))
    (h : ¬ HasMatch Pq Cq s) : ¬ HasMatch Pq Cq (reSub P B s) := by
  intro hm
  apply h
  obtain ⟨hP, hBne0, -⟩ := hok
  obtain ⟨hBne, hq1, hq2, hq3⟩ := hcross
  obtain ⟨b0, Bt, hB⟩ := List.exists_cons_of_ne_nil hBne
  have hhead : (P, B).2.headI = b0 := by rw [hB]; rfl
  rw [hhead] at hq1 hq2 hq3
  exact reSubF_hasMatch_rev hB hP hokq.2.1 (not_mem_of_all_ne hq1)
    (not_mem_of_all_ne hq2)
    (hq3.imp id (fun hd c hc => hd c hc)) le_rfl hm

theorem applyPats_cons (pb : Str × Str) (pats : List (Str × Str)) (t : Str) :
    applyPats (pb :: pats) t = applyPats pats (reSub pb.1 pb.2 t) := rfl

theorem applyPats_pres {pb : Str × Str} :
    ∀ {pats : List (Str × Str)} {t : Str}, SelfOk pb →
      (∀ q ∈ pats, SelfOk q) → (∀ q ∈ pats, CrossOk pb q) →
      ¬ HasMatch pb.1 pb.2 t → ¬ HasMatch pb.1 pb.2 (applyPats pats t) := by
  intro pats
  induction pats with
  | nil => intro t _ _ _ h; exact h
  | cons q rest ih =>
    intro t hok hsall hcall h
    rw [applyPats_cons]
    exact ih hok (fun q2 h2 => hsall q2 (List.mem_cons_of_mem _ h2))
      (fun q2 h2 => hcall q2 (List.mem_cons_of_mem _ h2))
      (reSub_pres hok (hsall q (List.mem_cons_self _ _))
        (hcall q (List.mem_cons_self _ _)) h)

theorem applyPats_noMatch :
    ∀ {pats : List (Str × Str)} {t : Str}, (∀ q ∈ pats, SelfOk q) →
      (∀ p ∈ pats, ∀ q ∈ pats, CrossOk p q) →
      ∀ pb ∈ pats, ¬ HasMatch pb.1 pb.2 (applyPats pats t) := by
  intro pats
  induction pats with
  | nil => intro t _ _ pb hpb; cases hpb
  | cons q rest ih =>
    intro t hsall hcall pb hpb
    rw [applyPats_cons]
    rcases List.mem_cons.mp hpb with rfl | hmem
    · exact applyPats_pres (hsall pb (List.mem_cons_self _ _))
        (fun q2 h2 => hsall q2 (List.mem_cons_of_mem _ h2))
        (fun q2 h2 => hcall pb (List.mem_cons_self _ _) q2 (List.mem_cons_of_mem _ h2))
        (reSub_noMatch (hsall pb (List.mem_cons_self _ _)) t)
    · exact ih (fun q2 h2 => hsall q2 (List.mem_cons_of_mem _ h2))
        (fun p2 hp2 q2 h2 => hcall p2 (List.mem_cons_of_mem _ hp2) q2
          (List.mem_cons_of_mem _ h2)) pb hmem

theorem applyPats_id :
    ∀ {pats : List (Str × Str)} {t : Str},
      (∀ pb ∈ pats, ¬ HasMatch pb.1 pb.2 t) → applyPats pats t = t := by
  intro pats
  induction pats with
  | nil => intro t _; rfl
  | cons q rest ih =>
    intro t h
    rw [applyPats_cons, reSub_id (h q (List.mem_cons_self _ _))]
    exact ih (fun pb hpb => h pb (List.mem_cons_of_mem _ hpb))

/-- All 28 patterns of the filter satisfy the single-pattern conditions. -/
theorem allPatterns_selfOk : ∀ pb ∈ allPatterns, SelfOk pb := by
  unfold SelfOk
  decide

/-- All pattern pairs of the filter satisfy the cross conditions. -/
theorem allPatterns_crossOk :
    ∀ p ∈ allPatterns, ∀ q ∈ allPatterns, CrossOk p q := by
  unfold CrossOk
  decide

/- ## Assembly: pyStrip -/

theorem dropWhile_head_not {p : Char → Bool} :
    ∀ (l : Str) {c : Char} {t : Str}, l.dropWhile p = c :: t → p c = false := by
  intro l
  induction l with
  | nil => intro c t h; cases h
  | cons a rest ih =>
    intro c t h
    by_cases ha : p a = true
    · rw [List.dropWhile_cons_of_pos ha] at h
      exact ih h
    · rw [List.dropWhile_cons_of_neg ha] at h
      injection h with h1 _
      subst h1
      simpa using ha

theorem dropWhile_dropWhile {p : Char → Bool} (l : Str) :
    (l.dropWhile p).dropWhile p = l.dropWhile p := by
  cases h : l.dropWhile p with
  | nil => rfl
  | cons c t =>
    rw [List.dropWhile_cons_of_neg (by simp [dropWhile_head_not l h])]

theorem dropWhile_eq_self_of_head {p : Char → Bool} {l : Str}
    (h : ∀ c t, l = c :: t → p c = false) : l.dropWhile p = l := by
  cases l with
  | nil => rfl
  | cons c t => rw [List.dropWhile_cons_of_neg (by simp [h c t rfl])]

theorem pyStrip_prefix_trimmed (s : Str) :
    pyStrip s <+: s.dropWhile isPySpace := by
  unfold pyStrip
  rw [← List.reverse_suffix, List.reverse_reverse]
  exact List.dropWhile_suffix _

theorem pyStrip_within (s : Str) : pyStrip s <:+: s :=
  (pyStrip_prefix_trimmed s).isInfix.trans (List.dropWhile_suffix _).isInfix

theorem pyStrip_idem (s : Str) : pyStrip (pyStrip s) = pyStrip s := by
  have hhead : (pyStrip s).dropWhile isPySpace = pyStrip s := by
    apply dropWhile_eq_self_of_head
    intro c t hct
    have hpre := pyStrip_prefix_trimmed s
    rw [hct] at hpre
    obtain ⟨r, hr⟩ := hpre
    rw [List.cons_append] at hr
    exact dropWhile_head_not _ hr.symm
  have hrev : (pyStrip s).reverse =
      (s.dropWhile isPySpace).reverse.dropWhile isPySpace := by
    unfold pyStrip
    rw [List.reverse_reverse]
  have hdef : pyStrip (pyStrip s) =
      (((pyStrip s).dropWhile isPySpace).reverse.dropWhile isPySpace).reverse := rfl
  rw [hdef, hhead, hrev, dropWhile_dropWhile, ← hrev, List.reverse_reverse]

/-- Rewriting of `filter_terms_and_conditions` as strip of the 28-pattern fold. -/
theorem filter_eq_applyPats (text : Str) :
    filter_terms_and_conditions text = pyStrip (applyPats allPatterns text) := by
  simp only [filter_terms_and_conditions, applyPats, allPatterns,
    List.foldl_append, List.foldl_cons, List.foldl_nil]

/- ## Claim C5 -/

/-- Claim C5 (confirmed): filtering is idempotent — for every string `x`,
`filter_terms_and_conditions (filter_terms_and_conditions x)` equals
`filter_terms_and_conditions x`. -/
theorem C5_filter_idempotent (x : Str) :
    filter_terms_and_conditions (filter_terms_and_conditions x) =
      filter_terms_and_conditions x := by
  rw [filter_eq_applyPats x]
  have hnm : ∀ pb ∈ allPatterns,
      ¬ HasMatch pb.1 pb.2 (applyPats allPatterns x) :=
    applyPats_noMatch allPatterns_selfOk allPatterns_crossOk
  have hnms : ∀ pb ∈ allPatterns,
      ¬ HasMatch pb.1 pb.2 (pyStrip (applyPats allPatterns x)) :=
    fun pb hpb h =>
      hnm pb hpb (hasMatch_of_within (pyStrip_within _) h)
  rw [filter_eq_applyPats (pyStrip (applyPats allPatterns x)),
    applyPats_id hnms, pyStrip_idem]

/- ## Claim C6 -/

/-- Claim C6 (corrected): on input containing no pattern match the filter
is the identity only up to the final `str.strip()`; the unmodified claim
fails on `" a"`. -/
theorem C6_counterexample :
    (∀ pb ∈ allPatterns, hasMatchB pb.1 pb.2 (" a".toList) = false) ∧
      filter_terms_and_conditions (" a".toList) ≠ (" a".toList) := by decide

/-- Claim C6 (amended): for every string `x` in which no boilerplate
pattern and no bracketed image placeholder matches AND which carries no
leading or trailing whitespace, `filter_terms_and_conditions x = x`
(equivalently, on pattern-free text the filter acts as `str.strip()`). -/
theorem C6_filter_identity_on_clean {x : Str}
    (hnm : ∀ pb ∈ allPatterns, hasMatchB pb.1 pb.2 x = false)
    (hstrip : pyStrip x = x) :
    filter_terms_and_conditions x = x := by
  have h : ∀ pb ∈ allPatterns, ¬ HasMatch pb.1 pb.2 x := by
    intro pb hpb hmatch
    rw [← hasMatchB_iff, hnm pb hpb] at hmatch
    cases hmatch
  rw [filter_eq_applyPats, applyPats_id h, hstrip]

/-- Witness for C6: the amended statement applied to a concrete
pattern-free, already-stripped text. -/
theorem C6_witness :
    filter_terms_and_conditions ("Just regular content without any legal text.".toList) =
      ("Just regular content without any legal text.".toList) :=
  C6_filter_identity_on_clean (by decide) (by decide)

/- ## Claim C7 -/

/-- Claim C7 (code bug): boundary matching is NOT uniform across the
pattern list — nine patterns use the raw blank line `"\n\n"` while the
other eighteen use the four literal characters backslash-n-backslash-n, so
a section such as `"Customer Care 123\n\nrest"` survives the filter even
though its pattern with the raw blank-line boundary would remove it. -/
theorem C7_boundary_not_uniform :
    (tcPatterns.any (fun pb => decide (pb.2 = nl2))) = true ∧
    (tcPatterns.any (fun pb => decide (pb.2 = bs2))) = true ∧
    filter_terms_and_conditions ("Customer Care 123\n\nrest".toList) =
      ("Customer Care 123\n\nrest".toList) ∧
    reSub ("Customer Care".toList) nl2 ("Customer Care 123\n\nrest".toList) =
      ("\n\nrest".toList) := by decide

/- ## Claim C8 -/

/-- Claim C8 (corrected): the separator header of the aggregator is
`"\n\n--- Content from <id> ---\n\n"`, not
`"\n\n--- DOCUMENT: <id> ---\n\n"`. -/
theorem C8_counterexample :
    aggregate_documents [("a".toList, "t".toList)] ≠
      ("\n\n--- DOCUMENT: a ---\n\nt".toList) := by decide

theorem aggregate_documents_acc (docs : List (Str × Str)) :
    ∀ acc : Str,
      docs.foldl (fun acc d => acc ++ docSeparator d.1 ++ d.2) acc =
        acc ++ (docs.map (fun d => docSeparator d.1 ++ d.2)).flatten := by
  induction docs with
  | nil => intro acc; simp
  | cons d rest ih =>
    intro acc
    simp only [List.foldl_cons, List.map_cons, List.flatten_cons]
    rw [ih]
    simp [List.append_assoc]

/-- Claim C8 (amended): aggregation over (identifier, text) pairs produces
exactly the concatenation, in submission order, of one separator header
`"\n\n--- Content from <id> ---\n\n"` followed by that document's text per
document — each identifier and text contributed exactly once, with no
reordering and no deduplication. -/
theorem C8_aggregate_structure (docs : List (Str × Str)) :
    aggregate_documents docs =
      (docs.map (fun d => docSeparator d.1 ++ d.2)).flatten := by
  unfold aggregate_documents
  rw [aggregate_documents_acc]
  rfl

/- ## Claim C2 -/

/-- Claim C2 (corrected, counterexample): a transport error during the OCR
call makes extraction fall back to PyPDF2; when that also fails, the
returned string begins with "Error extracting text from PDF: ", not with
"Error occurred: ", so the upload handlers' check does not fire. -/
theorem C2_counterexample :
    extract_text_from_pdf
        ⟨true, .failure ("timeout".toList), .blocks [], .failure ("boom".toList)⟩ =
      ("Error extracting text from PDF: boom".toList) ∧
    extraction_failed_check (extract_text_from_pdf
        ⟨true, .failure ("timeout".toList), .blocks [], .failure ("boom".toList)⟩) =
      false := by decide

/-- Claim C2 (amended): a transport/service error during either OCR call is
caught and answered by the PyPDF2 fallback (never by an
"Error occurred: "-prefixed marker); the upload handlers do detect failure
by checking the returned string for the prefix "Error occurred:", but none
of the fallback's own failure strings carries that prefix. -/
theorem C2_error_fallback (m : Str) (dc : DocCallResult) (pp : PyPdfOutcome) :
    extract_text_from_pdf ⟨true, .failure m, dc, pp⟩ =
      extract_text_with_pypdf2 pp ∧
    extract_text_from_pdf ⟨true, .unsupported, .failure m, pp⟩ =
      extract_text_with_pypdf2 pp ∧
    extraction_failed_check (extract_text_with_pypdf2 (.failure m)) = false ∧
    extraction_failed_check (extract_text_with_pypdf2 .importError) = false :=
  ⟨rfl, rfl, rfl, by decide⟩

/- ## Claim C3 -/

/-- Claim C3 (corrected, counterexample): when expense analysis succeeds
with zero extracted fields, extraction returns the literal
"No data was detected in the document." and never consults the forms/line
step — two environments differing only in the forms result produce the
same output. -/
theorem C3_counterexample :
    extract_text_from_pdf
        ⟨true, .fields [], .blocks [⟨"LINE".toList, "X".toList⟩], .pages []⟩ =
      ("No data was detected in the document.".toList) ∧
    extract_text_from_pdf
        ⟨true, .fields [], .blocks [⟨"LINE".toList, "X".toList⟩], .pages []⟩ =
      extract_text_from_pdf
        ⟨true, .fields [], .blocks [⟨"LINE".toList, "Y".toList⟩], .pages []⟩ := by
  decide

/-- Claim C3 (amended): if expense analysis succeeds but yields zero
key/value fields, extraction terminates with the literal
"No data was detected in the document." instead of falling through to the
forms/line step. -/
theorem C3_zero_fields (docs : List (List (List (List ExpenseField))))
    (dc : DocCallResult) (pp : PyPdfOutcome)
    (h : buildExpenseDict docs = []) :
    extract_text_from_pdf ⟨true, .fields docs, dc, pp⟩ =
      ("No data was detected in the document.".toList) := by
  simp [extract_text_from_pdf, h]

/-- Witness for C3. -/
theorem C3_witness :
    extract_text_from_pdf ⟨true, .fields [], .blocks [], .pages []⟩ =
      ("No data was detected in the document.".toList) :=
  C3_zero_fields [] (.blocks []) (.pages []) rfl

/- ## Claim C4 -/

/-- Claim C4 (corrected, counterexample): when every step yields no text
the extraction returns "No text could be extracted from the PDF.", not the
claimed literal "No text was detected in the document.". -/
theorem C4_counterexample :
    extract_text_from_pdf ⟨true, .unsupported, .unsupported, .pages []⟩ =
      ("No text could be extracted from the PDF.".toList) ∧
    extract_text_from_pdf ⟨true, .unsupported, .unsupported, .pages []⟩ ≠
      ("No text was detected in the document.".toList) := by decide

theorem buildPages_nil :
    ∀ (n : Nat) (ps : List Str), (∀ p ∈ ps, p = []) → buildPages n ps = [] := by
  intro n ps
  induction ps generalizing n with
  | nil => intro _; rfl
  | cons p rest ih =>
    intro h
    rw [h p (List.mem_cons_self _ _)]
    simp [buildPages, ih (n + 1) (fun q hq => h q (List.mem_cons_of_mem _ hq))]

/-- Claim C4 (amended): with the expense and forms steps both reporting an
unsupported document and every page of the local parser empty, extraction
returns the literal "No text could be extracted from the PDF."; the
zero-field expense path returns "No data was detected in the document.". -/
theorem C4_no_text (ps : List Str)
    (docs : List (List (List (List ExpenseField))))
    (dc : DocCallResult) (pp : PyPdfOutcome)
    (hps : ∀ p ∈ ps, p = []) (hdocs : buildExpenseDict docs = []) :
    extract_text_from_pdf ⟨true, .unsupported, .unsupported, .pages ps⟩ =
      ("No text could be extracted from the PDF.".toList) ∧
    extract_text_from_pdf ⟨true, .fields docs, dc, pp⟩ =
      ("No data was detected in the document.".toList) := by
  constructor
  · simp [extract_text_from_pdf, extract_text_with_pypdf2,
      buildPages_nil 0 ps hps, pyStrip]
  · simp [extract_text_from_pdf, hdocs]

/-- Witness for C4. -/
theorem C4_witness :
    extract_text_from_pdf ⟨true, .unsupported, .unsupported, .pages [[], []]⟩ =
      ("No text could be extracted from the PDF.".toList) ∧
    extract_text_from_pdf ⟨true, .fields [], .unsupported, .pages []⟩ =
      ("No data was detected in the document.".toList) :=
  C4_no_text [[], []] [] .unsupported (.pages []) (by decide) rfl

/- ## Claim C1 -/

theorem suffixFrom_head {ch : Char} :
    ∀ {s t : Str}, suffixFrom ch s = some t → ∃ t2, t = ch :: t2 := by
  intro s
  induction s with
  | nil => intro t h; cases h
  | cons c rest ih =>
    intro t h
    simp only [suffixFrom] at h
    split at h
    · rename_i hc
      injection h with h1
      exact ⟨rest, by rw [← h1, hc]⟩
    · exact ih h

theorem suffixFrom_suffix {ch : Char} :
    ∀ {s t : Str}, suffixFrom ch s = some t → t <:+ s := by
  intro s
  induction s with
  | nil => intro t h; cases h
  | cons c rest ih =>
    intro t h
    simp only [suffixFrom] at h
    split at h
    · injection h with h1
      rw [← h1]
    · exact (ih h).trans (List.suffix_cons _ _)

/-- The brace span produced by `braceSpan` starts with an opening brace. -/
theorem braceSpan_head {s sp : Str} (h : braceSpan s = some sp) :
    ∃ rest, sp = '{' :: rest := by
  unfold braceSpan at h
  split at h
  · cases h
  · rename_i s1 hs1
    split at h
    · cases h
    · rename_i r1 hr1
      injection h with h1
      obtain ⟨s2, hs2⟩ := suffixFrom_head hs1
      obtain ⟨r2, hr2⟩ := suffixFrom_head hr1
      have hpre : r1.reverse <+: s1 := by
        have hx := List.reverse_prefix.mpr (suffixFrom_suffix hr1)
        rwa [List.reverse_reverse] at hx
      rw [hs2] at hpre
      obtain ⟨k, hk⟩ := hpre
      match hrev : r1.reverse, hk, h1 with
      | [], hk, h1 =>
        exfalso
        rw [hr2] at hrev
        simp at hrev
      | c :: t, hk, h1 =>
        rw [List.cons_append] at hk
        injection hk with hc _
        exact ⟨t, by rw [← h1, hc]⟩

theorem parseJsonValue_brace_eq (fuel : Nat) (rest : Str) :
    parseJsonValue (fuel + 1) ('{' :: rest) =
      match skipJsonWs rest with
      | '}' :: r2 => some (PyJson.obj [], r2)
      | t => (parseJsonObjMembers fuel t []).map
          (fun pr => (PyJson.obj pr.1, pr.2)) := rfl

theorem parseJsonValue_obj_of_brace :
    ∀ {fuel : Nat} {rest : Str} {v : PyJson} {r : Str},
      parseJsonValue fuel ('{' :: rest) = some (v, r) → v.isObj = true := by
  intro fuel rest v r h
  match fuel with
  | 0 => exact Option.noConfusion h
  | fuel + 1 =>
    rw [parseJsonValue_brace_eq] at h
    split at h
    · simp only [Option.some.injEq, Prod.mk.injEq] at h
      rw [← h.1]
      rfl
    · rw [Option.map_eq_some'] at h
      obtain ⟨pr, -, heq⟩ := h
      simp only [Prod.mk.injEq] at heq
      rw [← heq.1]
      rfl

/-- A successful `json.loads` on input starting with `{` yields an object. -/
theorem json_loads_obj_of_brace {rest : Str} {v : PyJson}
    (h : json_loads ('{' :: rest) = some v) : v.isObj = true := by
  have h2 : (match parseJsonValue (2 * ('{' :: rest).length + 2) ('{' :: rest) with
    | some (v2, r) => if skipJsonWs r = [] then some v2 else none
    | none => none) = some v := h
  split at h2
  · rename_i v2 r heq2
    split at h2
    · injection h2 with hv
      rw [← hv]
      exact parseJsonValue_obj_of_brace heq2
    · exact Option.noConfusion h2
  · exact Option.noConfusion h2

/-- Claim C1 (corrected, counterexample): on model output "42" the repair
step returns the JSON number 42 — not a dictionary, and not the
`raw_summary` fallback object the claim promises. -/
theorem C1_counterexample :
    repair_model_output ("42".toList) = PyJson.int 42 ∧
    PyJson.isObj (repair_model_output ("42".toList)) = false :=
  ⟨rfl, rfl⟩

/-- Claim C1 (amended): for every model-output string, if after fence
stripping a first-`{`-to-last-`}` span exists and parses as JSON, that
value — necessarily an object — is returned; in general whatever the
cleaned text parses to is returned (even when it is not a dictionary,
as happens when the fence-stripped text has no brace span but parses as a
bare JSON value); only when parsing fails is the fallback dictionary
`{"raw_summary": <trimmed raw text>}` returned. -/
theorem C1_repair (t : Str) :
    (∀ sp v, braceSpan (afterFences t) = some sp → json_loads sp = some v →
      repair_model_output t = v ∧ v.isObj = true) ∧
    (json_loads (clean_model_json_output t) = none →
      repair_model_output t =
        PyJson.obj [(("raw_summary".toList), PyJson.str (pyStrip t))]) ∧
    (∀ v, json_loads (clean_model_json_output t) = some v →
      repair_model_output t = v) := by
  refine ⟨?_, ?_, ?_⟩
  · intro sp v hbs hjl
    have hclean : clean_model_json_output t = sp := by
      unfold clean_model_json_output
      rw [hbs]
    refine ⟨by unfold repair_model_output; rw [hclean, hjl], ?_⟩
    obtain ⟨rest, hrest⟩ := braceSpan_head hbs
    rw [hrest] at hjl
    exact json_loads_obj_of_brace hjl
  · intro hnone
    unfold repair_model_output
    rw [hnone]
  · intro v hsome
    unfold repair_model_output
    rw [hsome]

/-- Witness for C1: the spec's own example input. -/
theorem C1_witness :
    repair_model_output ("```json\n\x7b\"a\": 1\x7d\n```".toList) =
      PyJson.obj [("a".toList, PyJson.int 1)] ∧
    PyJson.isObj (PyJson.obj [("a".toList, PyJson.int 1)]) = true :=
  (C1_repair ("```json\n\x7b\"a\": 1\x7d\n```".toList)).1
    ("\x7b\"a\": 1\x7d".toList) (PyJson.obj [("a".toList, PyJson.int 1)]) rfl rfl

/- ## Claim C9 -/

/-- Claim C9 (corrected, counterexample): after both models fail, the
narrative summarizer returns the plain string
"Error during summarization: x" — exactly the value it returns when a
model successfully produces that text as its summary, so the error case is
NOT a distinguishable variant. -/
theorem C9_counterexample :
    summarize_text genBothFail ("hi".toList) 1000 =
      summarize_text genFakeError ("hi".toList) 1000 ∧
    summarize_text genBothFail ("hi".toList) 1000 =
      ("Error during summarization: x".toList) := by decide

/-- Claim C9 (amended): on a primary-model error both summarizers retry
exactly once against the fallback model with the identical prompt; if the
fallback also fails, the structured summarizer returns a dictionary with an
explicit "error" field, while the narrative summarizer returns the plain
string "Error during summarization: <message>" — a value indistinguishable
from a valid summary. -/
theorem C9_fallback_behaviour (gen : Str → Str → GenResult) (text : Str)
    (mw : Nat) (fnames : Option (List Str)) (e1 e2 r : Str)
    (htext : text.all isPySpace = false) :
    (gen primaryModelName (summaryPrompt mw text) = .err e1 →
      gen fallbackModelName (summaryPrompt mw text) = .ok r →
      summarize_text gen text mw = pyStrip r) ∧
    (gen primaryModelName (summaryPrompt mw text) = .err e1 →
      gen fallbackModelName (summaryPrompt mw text) = .err e2 →
      summarize_text gen text mw =
        ("Error during summarization: ".toList) ++ e2) ∧
    (gen primaryModelName (multiPrompt text fnames mw) = .err e1 →
      gen fallbackModelName (multiPrompt text fnames mw) = .ok r →
      summarize_multiple_documents gen text fnames mw =
        repair_model_output r) ∧
    (gen primaryModelName (multiPrompt text fnames mw) = .err e1 →
      gen fallbackModelName (multiPrompt text fnames mw) = .err e2 →
      summarize_multiple_documents gen text fnames mw =
        PyJson.obj [(("error".toList), PyJson.str
          (("Error during multi-document summarization: ".toList) ++ e2))]) := by
  refine ⟨?_, ?_, ?_, ?_⟩
  · intro hp hf
    simp [summarize_text, htext, hp, hf]
  · intro hp hf
    simp [summarize_text, htext, hp, hf]
  · intro hp hf
    simp [summarize_multiple_documents, htext, hp, hf]
  · intro hp hf
    simp [summarize_multiple_documents, htext, hp, hf]

/-- Witness for C9: a collaborator failing on both models. -/
theorem C9_witness :
    summarize_text genPrimaryFallbackFail ("hi".toList) 1000 =
      ("Error during summarization: ".toList) ++ ("q".toList) ∧
    summarize_multiple_documents genPrimaryFallbackFail ("hi".toList) none 500 =
      PyJson.obj [(("error".toList), PyJson.str
        (("Error during multi-document summarization: ".toList) ++ ("q".toList)))] := by
  have h := C9_fallback_behaviour genPrimaryFallbackFail ("hi".toList) 1000 none
    ("p".toList) ("q".toList) ("z".toList) (by decide)
  have h2 := C9_fallback_behaviour genPrimaryFallbackFail ("hi".toList) 500 none
    ("p".toList) ("q".toList) ("z".toList) (by decide)
  exact ⟨h.2.1 rfl rfl, h2.2.2.2 rfl rfl⟩

/- ## Claim C10 -/

/-- Claim C10 (confirmed): on empty or all-whitespace input,
`summarize_text` returns the literal "No text provided for summarization."
and `summarize_multiple_documents` returns the dictionary
`{"error": "No text provided for summarization."}`; neither result depends
on the LLM collaborator, so no model is invoked. -/
theorem C10_blank_input (gen gen2 : Str → Str → GenResult) (text : Str)
    (mw mw2 : Nat) (fnames fnames2 : Option (List Str))
    (h : text.all isPySpace = true) :
    summarize_text gen text mw =
      ("No text provided for summarization.".toList) ∧
    summarize_multiple_documents gen text fnames mw =
      PyJson.obj [(("error".toList),
        PyJson.str ("No text provided for summarization.".toList))] ∧
    summarize_text gen text mw = summarize_text gen2 text mw2 ∧
    summarize_multiple_documents gen text fnames mw =
      summarize_multiple_documents gen2 text fnames2 mw2 := by
  refine ⟨?_, ?_, ?_, ?_⟩ <;> simp [summarize_text, summarize_multiple_documents, h]

/-- Witness for C10. -/
theorem C10_witness :
    summarize_text genAlwaysOk (" \t\n".toList) 1000 =
      ("No text provided for summarization.".toList) ∧
    summarize_multiple_documents genAlwaysOk (" \t\n".toList) none 500 =
      PyJson.obj [(("error".toList),
        PyJson.str ("No text provided for summarization.".toList))] ∧
    summarize_text genAlwaysOk (" \t\n".toList) 1000 =
      summarize_text genAlwaysFail (" \t\n".toList) 1000 ∧
    summarize_multiple_documents genAlwaysOk (" \t\n".toList) none 500 =
      summarize_multiple_documents genAlwaysFail (" \t\n".toList) none 500 :=
  C10_blank_input genAlwaysOk genAlwaysFail (" \t\n".toList) 1000 1000 none none
    (by decide)

